import Mathlib

/-!
Verification of the RPCA decomposition core of the Qolmat repository
(`qolmat/imputations/rpca/rpca_pcp.py` and `qolmat/imputations/rpca/rpca_noisy.py`).

Matrices are embedded as `Matrix (Fin m) (Fin n) ℚ`: the Python code computes with
IEEE doubles, which we model by exact rational arithmetic, the standard idealisation
of the real-valued algorithm.  Boolean masks (`Omega`) are `Matrix (Fin m) (Fin n) Bool`.
The helper modules `rpca_utils` and `qolmat.utils` are not part of the given sources;
every definition below that models them is marked `Modelled from the spec:` and follows
the natural-language specification.  External numerical library routines whose exact
value is irrational over ℚ (`np.sqrt`, the SVD inside `svd_thresholding` and
`approx_rank`, the nuclear norm `np.linalg.norm(·, "nuc")`) are passed to the
embeddings as explicit function arguments; concrete instances use inputs where the
exact value is rational.
-/

open scoped Matrix

/-- Rectangular rational matrix, the embedding of a numpy 2-D float array. -/
abbrev Mat (m n : ℕ) : Type := Matrix (Fin m) (Fin n) ℚ

/-- Boolean mask matrix, the embedding of a numpy 2-D boolean array. -/
abbrev MatB (m n : ℕ) : Type := Matrix (Fin m) (Fin n) Bool

/-- `np.ones((m, n))`: the all-ones matrix. -/
def matOnes (m n : ℕ) : Mat m n := Matrix.of fun _ _ => (1 : ℚ)

/-- `np.where(Omega, A, B)`: entrywise selection by a boolean mask. -/
def matWhere {m n : ℕ} (Omega : MatB m n) (A B : Mat m n) : Mat m n :=
  Matrix.of fun i j => if Omega i j then A i j else B i j

/-- `np.any(~Omega)`: true when the mask has at least one `false` entry. -/
def anyNot {m n : ℕ} (Omega : MatB m n) : Bool :=
  decide (∃ i j, Omega i j = false)

/-- `np.sign`: the sign of a rational number, as computed by numpy. -/
def sgn (x : ℚ) : ℚ := if x < 0 then -1 else if x = 0 then 0 else 1

/-- Modelled from the spec: `rpca_utils.soft_thresholding` is not under `src/`.
Spec §4.1: element-wise `sign(x)·max(|x|−t, 0)`. -/
def soft_thresholding {m n : ℕ} (X : Mat m n) (t : ℚ) : Mat m n :=
  Matrix.of fun i j => sgn (X i j) * max (|X i j| - t) 0

/-- Modelled from the spec: `rpca_utils.l1_norm` is not under `src/`.
Spec §4.1: `Σ |xᵢⱼ|`. -/
def l1_norm {m n : ℕ} (X : Mat m n) : ℚ := ∑ i, ∑ j, |X i j|

/-- Sum of squared entries: the square of the Frobenius norm `‖X‖_F²`.
The source compares Frobenius norms (square roots, irrational over ℚ); all
comparisons are stated on squares, which is exactly equivalent for
nonnegative quantities. -/
def sumSq {m n : ℕ} (X : Mat m n) : ℚ := ∑ i, ∑ j, (X i j) ^ 2

/-- `np.linalg.norm(X, np.inf)` for a 2-D array: maximum absolute row sum.
(Row sums are nonnegative, so folding `max` from `0` returns the maximum row
sum for every nonempty matrix.) -/
def normInf {m n : ℕ} (X : Mat m n) : ℚ :=
  ((List.finRange m).map fun i => ∑ j, |X i j|).foldl max 0

/-- Modelled from the spec: `qolmat.utils.utils.linear_interpolation` /
`utils_np._linear_interpolation` are not under `src/`.  Spec §4.2: they fill NaN
entries by interpolation between finite neighbours and leave finite entries
unchanged.  A rational matrix has no NaN sentinel, so on the embedded domain the
warm start is the identity. -/
def linear_interpolation {m n : ℕ} (D : Mat m n) : Mat m n := D

/-- Modelled from the spec: `rpca_utils.toeplitz_matrix(period, n, model="column")`
is not under `src/`.  Spec §4.1/§3: an `(n × (n−p))` matrix whose column `j` has `+1`
at row `j` and `−1` at row `j+p`, zero elsewhere. -/
def toeplitz_matrix (p n : ℕ) : Matrix (Fin n) (Fin (n - p)) ℚ :=
  Matrix.of fun i j =>
    if (i : ℕ) = (j : ℕ) then 1 else if (i : ℕ) = (j : ℕ) + p then -1 else 0

/-- `scp.linalg.solve(a, b)`: the solution `X` of `a X = b`.  For a nonsingular
`a` this is `a⁻¹ b`, written through the adjugate; scipy raises on a singular
`a`, where this total model returns junk (the zero matrix scaled by `0⁻¹ = 0`);
no claim depends on a singular solve. -/
def linsolve {n k : ℕ} (a : Mat n n) (b : Mat n k) : Mat n k :=
  (a.det)⁻¹ • (a.adjugate * b)

/-- Generic fuel-bounded iteration with a `break` test evaluated after each
iteration, mirroring Python's `for iteration in range(fuel): ...; if brk: break`.
Returns the final state together with the number of iterations executed. -/
def loopB {σ : Type _} (step : σ → σ) (brk : σ → Bool) : ℕ → σ → σ × ℕ
  | 0, st => (st, 0)
  | f + 1, st =>
    let st1 := step st
    if brk st1 then (st1, 1)
    else
      let r := loopB step brk f st1
      (r.1, r.2 + 1)

/-- Error taxonomy of the embedded solvers (spec §7): `invalidParameter p n`
models the `ValueError` raised when a period `p` is not smaller than the
number `n` of columns; `shapeError` models a numpy shape error raised inside
a solver; `nameError` models the Python `NameError` reached when `norm` is
neither `"L1"` nor `"L2"` (both branches skipped leave `M` unbound). -/
inductive RpcaError : Type where
  | invalidParameter (period ncols : ℕ) : RpcaError
  | shapeError : RpcaError
  | nameError : RpcaError
deriving DecidableEq

/-- `e` is the `InvalidParameter` error of spec §7. -/
def RpcaError.isInvalidParameter : RpcaError → Bool
  | .invalidParameter _ _ => true
  | _ => false

section PCP

/-! ## `rpca_pcp.py` — class `RPCAPCP` -/

variable {m n k : ℕ}

namespace RPCAPCP

/-- `RPCAPCP.get_params_scale` (rpca_pcp.py lines 60–82): default
`mu = D.size / (4 * l1_norm D)` and `lam = 1 / sqrt (max (D.shape))`.
`np.sqrt` is an external float routine passed as the oracle `sqrtFn`. -/
def get_params_scale (sqrtFn : ℚ → ℚ) (D : Mat m n) : ℚ × ℚ :=
  let mu := (m * n : ℚ) / (4 * l1_norm D)
  let lam := 1 / sqrtFn (max m n : ℕ)
  (mu, lam)

/-- The loop-carried variables of `RPCAPCP.decompose_rpca`:  `M`, `A`, `Y`,
the last SVD factors `L`, `Q`, and the mask `Omega` (part of the frame; the
loop body never assigns it). -/
structure State (m n k : ℕ) where
  M : Mat m n
  A : Mat m n
  Y : Mat m n
  L : Mat m k
  Q : Mat k n
  Omega : MatB m n

/-- One iteration of the PCP ADMM loop (rpca_pcp.py lines 191–196):
`L, Q = svd_thresholding(D - A + Y/mu, mu)`; `M = L @ Q`;
`A = soft_thresholding(D - M + Y/mu, lam * mu)`; `A[~Omega] = (D - M)[~Omega]`;
`Y += mu * (D - M - A)`.  `rpca_utils.svd_thresholding` is not under `src/`
(spec §4.1: SVD, soft-threshold the singular values by the second argument,
return factors); it is passed as the oracle `svt`. -/
def step (svt : Mat m n → ℚ → Mat m k × Mat k n) (D : Mat m n) (mu lam : ℚ)
    (st : State m n k) : State m n k :=
  let LQ := svt (D - st.A + mu⁻¹ • st.Y) mu
  let M := LQ.1 * LQ.2
  let A0 := soft_thresholding (D - M + mu⁻¹ • st.Y) (lam * mu)
  let A := matWhere st.Omega A0 (D - M)
  let Y := st.Y + mu • (D - M - A)
  { M := M, A := A, Y := Y, L := LQ.1, Q := LQ.2, Omega := st.Omega }

/-- The stopping test of the PCP loop (rpca_pcp.py lines 198–202):
`error = ‖D − M − A‖_F / ‖D‖_F < tol`.  Stated on squares: for the
nonnegative float `error` this is exactly `0 < tol ∧ ‖D−M−A‖_F² < tol² ‖D‖_F²`
(when `‖D‖_F = 0` the float quotient is `inf` or `nan` and the comparison is
false, which the squared form also yields). -/
def errB (D : Mat m n) (tol : ℚ) (st : State m n k) : Bool :=
  decide (0 < tol) && decide (sumSq (D - st.M - st.A) < tol ^ 2 * sumSq D)

/-- Initial state of the PCP loop (rpca_pcp.py lines 184–189): `A = 0`,
`Y = 0`, `M = D − A`.  The factors `L`, `Q` are unbound in Python before the
first iteration (a call with `max_iterations = 0` would raise `NameError` at
the return); the embedding initialises them to `0`. -/
def init (D : Mat m n) (Omega : MatB m n) : State m n k :=
  let A : Mat m n := 0
  { M := D - A, A := A, Y := 0, L := 0, Q := 0, Omega := Omega }

/-- State after `j` unconditional iterations of the PCP loop body. -/
def iterState (svt : Mat m n → ℚ → Mat m k × Mat k n) (D : Mat m n)
    (mu lam : ℚ) (Omega : MatB m n) (j : ℕ) : State m n k :=
  (step svt D mu lam)^[j] (init D Omega)

/-- `round(x, 4)`: rounding to four decimal places (Python rounds ties to
even on the binary float; the embedding rounds exactly to the nearest
multiple of `1/10⁴`, which agrees everywhere except at exact ties). -/
def round4 (x : ℚ) : ℚ := ((round (x * 10000) : ℤ) : ℚ) / 10000

/-- `RPCAPCP._check_cost_function_minimized` (rpca_pcp.py lines 208–239):
compares `cost_start = ‖observations‖_*` with
`cost_end = ‖low_rank‖_* + lam * Σ (Omega * |anomalies|)` and warns (a
non-fatal `warnings.warn`, never an exception) when `verbose` is set and
`round(cost_start, 4) − round(cost_end, 4) ≤ −1e−2`.  The nuclear norm
`np.linalg.norm(·, "nuc")` is irrational over ℚ and is passed as the oracle
`nuc`.  Returns whether the warning was emitted. -/
def check_cost_function_minimized (nuc : Mat m n → ℚ) (verbose : Bool)
    (observations low_rank anomalies : Mat m n) (Omega : MatB m n) (lam : ℚ) :
    Bool :=
  let cost_start := nuc observations
  let cost_end :=
    nuc low_rank + lam * ∑ i, ∑ j, (if Omega i j then |anomalies i j| else 0)
  verbose && decide (round4 cost_start - round4 cost_end ≤ -(1 / 100))

/-- The values returned by `RPCAPCP.decompose_rpca`, instrumented with the
number of executed loop iterations and with the result of the post-check
(whether the non-fatal warning was emitted). -/
structure Result (m n k : ℕ) where
  M : Mat m n
  A : Mat m n
  L : Mat m k
  Q : Mat k n
  iters : ℕ
  warned : Bool
  Omega : MatB m n

/-- `RPCAPCP.decompose_rpca` (rpca_pcp.py lines 153–206): resolve `mu`, `lam`
from `get_params_scale` when unset, warm-start `D` by linear interpolation,
run the ADMM loop for at most `max_iterations` iterations with the
`error < tol` break, run the cost post-check, and return `M, A, L, Q`. -/
def decompose_rpca (svt : Mat m n → ℚ → Mat m k × Mat k n)
    (nuc : Mat m n → ℚ) (sqrtFn : ℚ → ℚ) (verbose : Bool)
    (muOpt lamOpt : Option ℚ) (max_iterations : ℕ) (tol : ℚ)
    (D : Mat m n) (Omega : MatB m n) : Result m n k :=
  let params := get_params_scale sqrtFn D
  let mu := muOpt.getD params.1
  let lam := lamOpt.getD params.2
  let D1 := linear_interpolation D
  let r := loopB (step svt D1 mu lam) (errB D1 tol) max_iterations (init D1 Omega)
  let warned :=
    check_cost_function_minimized nuc verbose D1 r.1.M r.1.A Omega lam
  { M := r.1.M, A := r.1.A, L := r.1.L, Q := r.1.Q, iters := r.2,
    warned := warned, Omega := r.1.Omega }

/-- The loop-carried variables of `RPCAPCP.decompose_on_basis` (the basis `Q`
is read-only). -/
structure OBState (n k : ℕ) where
  M : Mat n n
  A : Mat n n
  Y : Mat n n
  L : Matrix (Fin n) (Fin k) ℚ

/-- One iteration of the `decompose_on_basis` loop (rpca_pcp.py lines
130–140, the uncommented statements):
`A = np.where(Omega, soft_thresholding(D − M + Y/mu, lam*mu), D − M)`;
`L = solve(Q @ Q.T, Q @ (D − A + Y/mu)).T`; `M = L @ Q`;
`Y += mu (D − M − A)`.  There is no break test.  The shapes are consistent
only for square `D` (`Q @ (D − A + Y/mu)` multiplies `(rank, n)` by `(m, n)`),
which the dependent types force here. -/
def obStep (D : Mat n n) (Omega : MatB n n) (Q : Matrix (Fin k) (Fin n) ℚ)
    (mu lam : ℚ) (st : OBState n k) : OBState n k :=
  let A_Omega := soft_thresholding (D - st.M + mu⁻¹ • st.Y) (lam * mu)
  let A_Omega_C := D - st.M
  let A := matWhere Omega A_Omega A_Omega_C
  let L := (linsolve (Q * Qᵀ) (Q * (D - A + mu⁻¹ • st.Y)))ᵀ
  let M := L * Q
  let Y := st.Y + mu • (D - M - A)
  { M := M, A := A, Y := Y, L := L }

/-- `RPCAPCP.decompose_on_basis` (rpca_pcp.py lines 93–151): when `D` has
exactly one row or one column return `(D, np.full_like(D, 0))` immediately
(before the parameter estimation, the warm start and the loop); otherwise
resolve `mu`, `lam`, interpolate, initialise `A = M = Y = 0`, `L = 0`, run
`max_iterations` unconditional iterations, post-check, and return `(M, A)`.
The loop's shapes only match for square `D`; a non-square `D` without a
singleton dimension crashes in numpy at `Q @ (D - A + Y/mu)` and is mapped
to `shapeError`. -/
def decompose_on_basis (nuc : Mat m n → ℚ) (sqrtFn : ℚ → ℚ) (verbose : Bool)
    (muOpt lamOpt : Option ℚ) (max_iterations : ℕ)
    (D : Mat m n) (Omega : MatB m n) (Q : Matrix (Fin k) (Fin n) ℚ) :
    Except RpcaError (Mat m n × Mat m n) :=
  if m = 1 ∨ n = 1 then
    .ok (D, 0)
  else
    if h2 : m = n then
      let params := get_params_scale sqrtFn D
      let mu := muOpt.getD params.1
      let lam := lamOpt.getD params.2
      let Dsq : Mat n n := Matrix.of fun i j => D (Fin.cast h2.symm i) j
      let Osq : MatB n n := Matrix.of fun i j => Omega (Fin.cast h2.symm i) j
      let D1 := linear_interpolation Dsq
      let st0 : OBState n k := { M := 0, A := 0, Y := 0, L := 0 }
      let res := loopB (obStep D1 Osq Q mu lam) (fun _ => false)
        max_iterations st0
      let back : Mat n n → Mat m n := fun M =>
        Matrix.of fun i j => M (Fin.cast h2 i) j
      let warnB := check_cost_function_minimized (m := n) (n := n)
        (fun M => nuc (back M)) verbose D1 res.1.M res.1.A Osq lam
      .ok ((back res.1.M, back res.1.A), warnB).1
    else
      .error .shapeError

end RPCAPCP

end PCP

section Noisy

/-! ## `rpca_noisy.py` — class `RPCANoisy` -/

variable {m n r : ℕ}

namespace RPCANoisy

/-- `RPCANoisy.get_params_scale` (rpca_noisy.py lines 342–370):
`rank = approx_rank(D)`, `tau = 1 / sqrt (max (D.shape))`, `lam = tau`.
`rpca_utils.approx_rank` is not under `src/` (spec §4.1: the smallest `k` such
that the top-`k` singular values capture ≥ 95% of their sum — it needs the
SVD, irrational over ℚ) and is passed as the oracle `approxRank`; `np.sqrt`
is the oracle `sqrtFn`. -/
def get_params_scale (approxRank : Mat m n → ℕ) (sqrtFn : ℚ → ℚ)
    (D : Mat m n) : ℕ × ℚ × ℚ :=
  let rank := approxRank D
  let tau := 1 / sqrtFn (max m n : ℕ)
  let lam := tau
  (rank, tau, lam)

/-- `HHT = Σₖ ηₖ Hₖ Hₖᵀ` precomputed before the loop (rpca_noisy.py lines
127–129 and 249–251): a running sum over `enumerate(list_periods)` indexing
into `list_etas` (Python raises `IndexError` when `list_etas` is shorter;
the embedding totalises the out-of-range read with `0`). -/
def computeHHT (ps : List ℕ) (etas : List ℚ) (n : ℕ) : Mat n n :=
  (List.range ps.length).foldl
    (fun acc i =>
      acc + (etas.getD i 0) •
        (toeplitz_matrix (ps.getD i 0) n * (toeplitz_matrix (ps.getD i 0) n)ᵀ))
    0

/-- The loop-carried variables of the noisy solvers: the iterate `X`, the
anomaly `A`, the factors `L`, `Q`, the multiplier `Y`, the penalty `mu`, the
Python local `tol` holding the last convergence increment (`tolVal`), and the
mask `Omega` (part of the frame; the loop bodies never assign it). -/
structure NState (m n r : ℕ) where
  X : Mat m n
  A : Mat m n
  Y : Mat m n
  L : Mat m r
  Q : Mat n r
  mu : ℚ
  tolVal : ℚ
  Omega : MatB m n

/-- The stopping test of the noisy loops (`if tol < self.tol: break`,
rpca_noisy.py lines 192 and 310). -/
def brkN (tolCfg : ℚ) (st : NState m n r) : Bool := decide (st.tolVal < tolCfg)

/-- One iteration of the noisy L2 loop (rpca_noisy.py lines 262–311):
solve `((1+mu) Iₙ + HHT)ᵀ Xᵀ = (D − A + mu L Qᵀ − Y)ᵀ`; update `A` by
soft-thresholding with the `np.any(~Omega)` mask guard; solve for `L` (with
the previous `Q`) and then `Q` (with the new `L`); `Y += mu (X − L Qᵀ)`;
`mu = min(mu * 1.1, mu_bar)`; record the ∞-norm increments.  The per-iteration
SVD of `X` (line 302) only feeds the `do_report` plotting diagnostics and does
not affect the state or the returned values; it is omitted. -/
def stepL2 (D : Mat m n) (HHT : Mat n n) (lam tau muBar : ℚ)
    (st : NState m n r) : NState m n r :=
  let mu := st.mu
  let X := (linsolve ((1 + mu) • (1 : Mat n n) + HHT)ᵀ
    ((D - st.A + mu • (st.L * st.Qᵀ) - st.Y)ᵀ))ᵀ
  let A :=
    if anyNot st.Omega then
      matWhere st.Omega (soft_thresholding (D - X) lam) (D - X)
    else
      soft_thresholding (D - X) lam
  let L := (linsolve (tau • (1 : Mat r r) + mu • (st.Qᵀ * st.Q))ᵀ
    (((mu • X + st.Y) * st.Q)ᵀ))ᵀ
  let Q := (linsolve (tau • (1 : Mat r r) + mu • (Lᵀ * L))ᵀ
    (((mu • Xᵀ + st.Yᵀ) * L)ᵀ))ᵀ
  let Y := st.Y + mu • (X - L * Qᵀ)
  let mu1 := min (mu * (11 / 10)) muBar
  let tolVal := max (max (max (normInf (X - st.X)) (normInf (A - st.A)))
    (normInf (L - st.L))) (normInf (Q - st.Q))
  { X := X, A := A, Y := Y, L := L, Q := Q, mu := mu1, tolVal := tolVal,
    Omega := st.Omega }

/-- Initial state of the L2 loop (rpca_noisy.py lines 237–244): `Y = 0`,
`X = D`, `A = 0`, `L = 1_{m×r}`, `Q = 1_{n×r}`, `mu = 1e−6`. -/
def initL2 (D : Mat m n) (Omega : MatB m n) : NState m n r :=
  { X := D, A := 0, Y := 0, L := matOnes m r, Q := matOnes n r,
    mu := 1 / 1000000, tolVal := 0, Omega := Omega }

/-- The values returned by the noisy solvers (`M, A, U, V`), instrumented with
the number of executed loop iterations and the (never-assigned) mask. -/
structure NResult (m n r : ℕ) where
  M : Mat m n
  A : Mat m n
  U : Mat m r
  V : Mat n r
  iters : ℕ
  Omega : MatB m n

/-- `RPCANoisy.decompose_rpca_L2` (rpca_noisy.py lines 199–340): build `HHT`,
run the ADMM loop for at most `max_iter` iterations with the increment break,
then project `X = L @ Q.T` and return `M = X, A, U = L, V = Q`. -/
def decompose_rpca_L2 (D : Mat m n) (Omega : MatB m n) (lam tau : ℚ)
    (ps : List ℕ) (etas : List ℚ) (max_iter : ℕ) (tol : ℚ) : NResult m n r :=
  let mu0 : ℚ := 1 / 1000000
  let muBar := mu0 * 10000000000
  let HHT := computeHHT ps etas n
  let res := loopB (stepL2 D HHT lam tau muBar) (brkN tol) max_iter
    (initL2 D Omega)
  let X := res.1.L * res.1.Qᵀ
  { M := X, A := res.1.A, U := res.1.L, V := res.1.Q, iters := res.2,
    Omega := res.1.Omega }

/-- The initial state of `decompose_rpca_L1` (rpca_noisy.py lines 114–133),
for an arbitrary `list_periods`: `Y = 1_{m×n}`, `Y_[k] = 1_{m×(n−pₖ)}`,
`X = D`, `A = 0`, `L = 1_{m×r}`, `Q = 1_{n×r}`, `R[k] = 1_{m×(n−pₖ)}`,
`HHT = Σₖ ηₖ Hₖ Hₖᵀ`, `mu = 1e−6`. -/
structure L1Init (m n r : ℕ) (ps : List ℕ) where
  Y : Mat m n
  Yaux : (i : Fin ps.length) → Matrix (Fin m) (Fin (n - ps.get i)) ℚ
  X : Mat m n
  A : Mat m n
  L : Mat m r
  Q : Mat n r
  Raux : (i : Fin ps.length) → Matrix (Fin m) (Fin (n - ps.get i)) ℚ
  HHT : Mat n n
  mu : ℚ

/-- rpca_noisy.py lines 110–133 (the init section of `decompose_rpca_L1`). -/
def initL1 (D : Mat m n) (ps : List ℕ) (etas : List ℚ) : L1Init m n r ps :=
  { Y := matOnes m n
    Yaux := fun _ => Matrix.of fun _ _ => 1
    X := D
    A := 0
    L := matOnes m r
    Q := matOnes n r
    Raux := fun _ => Matrix.of fun _ _ => 1
    HHT := computeHHT ps etas n
    mu := 1 / 1000000 }

/-- One iteration of the noisy L1 loop (rpca_noisy.py lines 136–193) on the
empty `list_periods` (the only well-formed case: for any period `p ≥ 1` the
source crashes in its first iteration with a numpy shape error at
`X @ H[index].T`, since `X` is `(m, n)` and `H.T` is `(n−p, n)`).  With no
periods: `sums = 0`; solve `((1+mu) Iₙ + 2 HHT)ᵀ Xᵀ = (D − A + mu L Qᵀ − Y + sums)ᵀ`;
the `A` guard is `np.any(np.isnan(D))`, which is false on the NaN-free
rational domain, so `A = soft_thresholding(D − X, lam)` with no mask; `L`, `Q`
and `Y` as in L2; the `R`/`Y_` updates range over the empty list; `Rc = −1`
joins the increment maximum. -/
def stepL1 (D : Mat m n) (HHT : Mat n n) (lam tau muBar : ℚ)
    (st : NState m n r) : NState m n r :=
  let mu := st.mu
  let sums : Mat m n := 0
  let X := (linsolve ((1 + mu) • (1 : Mat n n) + 2 • HHT)ᵀ
    ((D - st.A + mu • (st.L * st.Qᵀ) - st.Y + sums)ᵀ))ᵀ
  let A := soft_thresholding (D - X) lam
  let L := (linsolve (tau • (1 : Mat r r) + mu • (st.Qᵀ * st.Q))ᵀ
    (((mu • X + st.Y) * st.Q)ᵀ))ᵀ
  let Q := (linsolve (tau • (1 : Mat r r) + mu • (Lᵀ * L))ᵀ
    (((mu • Xᵀ + st.Yᵀ) * L)ᵀ))ᵀ
  let Y := st.Y + mu • (X - L * Qᵀ)
  let mu1 := min (mu * (11 / 10)) muBar
  let Rc : ℚ := -1
  let tolVal := max (max (max (max (normInf (X - st.X)) (normInf (A - st.A)))
    (normInf (L - st.L))) (normInf (Q - st.Q))) Rc
  { X := X, A := A, Y := Y, L := L, Q := Q, mu := mu1, tolVal := tolVal,
    Omega := st.Omega }

/-- `RPCANoisy.decompose_rpca_L1` (rpca_noisy.py lines 74–197): initialise by
`initL1`, run the loop, and return `M = X` (the final iterate — unlike L2
there is no final projection onto `L Qᵀ`), `A`, `U = L`, `V = Q`.  Any
nonempty `list_periods` is mapped to `shapeError` (see `stepL1`; the
degenerate all-zero-periods case, which Python runs with `H = 0`, is also
conservatively mapped there — no claim depends on it). -/
def decompose_rpca_L1 (D : Mat m n) (Omega : MatB m n) (lam tau : ℚ)
    (ps : List ℕ) (etas : List ℚ) (max_iter : ℕ) (tol : ℚ) :
    Except RpcaError (NResult m n r) :=
  if ps = [] then
    let ini : L1Init m n r ps := initL1 D ps etas
    let muBar := ini.mu * 10000000000
    let st0 : NState m n r :=
      { X := ini.X, A := ini.A, Y := ini.Y, L := ini.L, Q := ini.Q,
        mu := ini.mu, tolVal := 0, Omega := Omega }
    let res := loopB (stepL1 D ini.HHT lam tau muBar) (brkN tol) max_iter st0
    .ok { M := res.1.X, A := res.1.A, U := res.1.L, V := res.1.Q,
          iters := res.2, Omega := res.1.Omega }
  else
    .error .shapeError

/-- `RPCANoisy.decompose_rpca_signal` (rpca_noisy.py lines 372–426) on a 2-D
input (`_prepare_data` and `get_shape_original` are not under `src/`; spec
§4.2: packing and unpacking are the identity on 2-D input, and 1-D packing
pads with the NaN float sentinel, outside the rational domain): build
`Omega = ~isnan(D_init)` (all-true on ℚ), warm-start by linear interpolation,
fill unset parameters from `get_params_scale`, validate every period against
the number of columns (raising `ValueError`, spec `InvalidParameter`, at the
first offender), then dispatch on `norm`. -/
def decompose_rpca_signal (approxRank : Mat m n → ℕ) (sqrtFn : ℚ → ℚ)
    (norm : String) (rankOpt : Option ℕ) (tauOpt lamOpt : Option ℚ)
    (ps : List ℕ) (etas : List ℚ) (max_iter : ℕ) (tol : ℚ)
    (X : Mat m n) : Except RpcaError (Mat m n × Mat m n) :=
  let D_init := X
  let Omega : MatB m n := Matrix.of fun _ _ => true
  let D_proj := linear_interpolation D_init
  let params := get_params_scale approxRank sqrtFn D_proj
  let lam := lamOpt.getD params.2.2
  let rank := rankOpt.getD params.1
  let tau := tauOpt.getD params.2.1
  match ps.find? (fun p => !(decide (p < n))) with
  | some p => .error (.invalidParameter p n)
  | none =>
    if norm = "L1" then
      (decompose_rpca_L1 (r := rank) D_proj Omega lam tau ps etas max_iter
        tol).map (fun res => (res.M, res.A))
    else if norm = "L2" then
      let res := decompose_rpca_L2 (r := rank) D_proj Omega lam tau ps etas
        max_iter tol
      .ok (res.M, res.A)
    else
      .error .nameError

end RPCANoisy

end Noisy

/-- Modelled from the spec: the SVD-thresholding oracle on `1×1` matrices.
For the scalar matrix `[x]` the full SVD is `U = [sign x]`, `Σ = [|x|]`,
`V = [1]`, so soft-thresholding the singular values by `t` (spec §4.1) gives
the factors `([sign x], [max (|x| − t) 0])`, whose product is
`sign(x) · max(|x| − t, 0)`. -/
def svt1 (X : Mat 1 1) (t : ℚ) : Mat 1 1 × Mat 1 1 :=
  (!![sgn (X 0 0)], !![max (|X 0 0| - t) 0])

/-- The nuclear norm of a `1×1` matrix is exactly `|x|`; a rational-valued
instance of the `np.linalg.norm(·, "nuc")` oracle. -/
def nuc1 (X : Mat 1 1) : ℚ := |X 0 0|

/-- The property `p` holds of the successful value of `e` (and `e` did
succeed). -/
def exceptOk {ε α : Type _} (e : Except ε α) (p : α → Prop) : Prop :=
  match e with
  | .ok a => p a
  | .error _ => False

/-- The call failed with the `InvalidParameter` error of spec §7. -/
def isInvalidParameterResult {α : Type _} : Except RpcaError α → Bool
  | .error err => err.isInvalidParameter
  | .ok _ => false

/-! ## Helper lemmas -/

theorem loopB_count_le {σ : Type _} (s : σ → σ) (b : σ → Bool) :
    ∀ (f : ℕ) (st : σ), (loopB s b f st).2 ≤ f := by
  intro f
  induction f with
  | zero => intro st; simp [loopB]
  | succ f ih =>
    intro st
    simp only [loopB]
    split
    · omega
    · have := ih (s st)
      omega

theorem loopB_fst {σ : Type _} (s : σ → σ) (b : σ → Bool) :
    ∀ (f : ℕ) (st : σ), (loopB s b f st).1 = s^[(loopB s b f st).2] st := by
  intro f
  induction f with
  | zero => intro st; simp [loopB]
  | succ f ih =>
    intro st
    simp only [loopB]
    split
    · simp
    · simpa [Function.iterate_succ_apply] using ih (s st)

theorem loopB_count_pos {σ : Type _} (s : σ → σ) (b : σ → Bool)
    (f : ℕ) (st : σ) (hf : 1 ≤ f) : 1 ≤ (loopB s b f st).2 := by
  cases f with
  | zero => omega
  | succ f =>
    simp only [loopB]
    split
    · omega
    · omega

theorem loopB_brk_of_lt {σ : Type _} (s : σ → σ) (b : σ → Bool) :
    ∀ (f : ℕ) (st : σ), (loopB s b f st).2 < f →
      b (s^[(loopB s b f st).2] st) = true := by
  intro f
  induction f with
  | zero => intro st h; omega
  | succ f ih =>
    intro st
    simp only [loopB]
    split
    · intro _
      simpa using (by assumption : b (s st) = true)
    · intro h
      have h2 : (loopB s b f (s st)).2 < f := by omega
      simpa [Function.iterate_succ_apply] using ih (s st) h2

theorem loopB_not_brk {σ : Type _} (s : σ → σ) (b : σ → Bool) :
    ∀ (f : ℕ) (st : σ) (j : ℕ), 1 ≤ j → j < (loopB s b f st).2 →
      b (s^[j] st) = false := by
  intro f
  induction f with
  | zero => intro st j h1 h2; simp [loopB] at h2
  | succ f ih =>
    intro st j h1 h2
    simp only [loopB] at h2 ⊢
    by_cases hb : b (s st) = true
    · simp [hb] at h2; omega
    · simp [hb] at h2
      cases j with
      | zero => omega
      | succ j =>
        cases j with
        | zero => simpa using (by simpa using hb : b (s st) = false)
        | succ j =>
          have := ih (s st) (j + 1) (by omega) (by omega)
          simpa [Function.iterate_succ_apply] using this

theorem loopB_count_eq_of_all_false {σ : Type _} (s : σ → σ) (b : σ → Bool)
    (f : ℕ) (st : σ) (hb : ∀ x, b x = false) : (loopB s b f st).2 = f := by
  rcases Nat.lt_or_ge (loopB s b f st).2 f with h | h
  · have := loopB_brk_of_lt s b f st h
    rw [hb] at this
    exact absurd this (by simp)
  · exact le_antisymm (loopB_count_le s b f st) h

/-- A one-iteration loop executes the body once, whether or not the break
fires. -/
theorem loopB_one {σ : Type _} (s : σ → σ) (b : σ → Bool) (st : σ) :
    loopB s b 1 st = (s st, 1) := by
  simp [loopB]

theorem pcpStep_preserves_Omega {m n k : ℕ}
    (svt : Mat m n → ℚ → Mat m k × Mat k n) (D : Mat m n) (mu lam : ℚ) :
    ∀ (j : ℕ) (st : RPCAPCP.State m n k),
      ((RPCAPCP.step svt D mu lam)^[j] st).Omega = st.Omega := by
  intro j
  induction j with
  | zero => intro st; simp
  | succ j ih =>
    intro st
    rw [Function.iterate_succ_apply]
    rw [ih (RPCAPCP.step svt D mu lam st)]
    rfl

theorem stepL2_preserves_Omega {m n r : ℕ} (D : Mat m n) (HHT : Mat n n)
    (lam tau muBar : ℚ) :
    ∀ (j : ℕ) (st : RPCANoisy.NState m n r),
      ((RPCANoisy.stepL2 D HHT lam tau muBar)^[j] st).Omega = st.Omega := by
  intro j
  induction j with
  | zero => intro st; simp
  | succ j ih =>
    intro st
    rw [Function.iterate_succ_apply]
    rw [ih (RPCANoisy.stepL2 D HHT lam tau muBar st)]
    rfl

theorem stepL1_preserves_Omega {m n r : ℕ} (D : Mat m n) (HHT : Mat n n)
    (lam tau muBar : ℚ) :
    ∀ (j : ℕ) (st : RPCANoisy.NState m n r),
      ((RPCANoisy.stepL1 D HHT lam tau muBar)^[j] st).Omega = st.Omega := by
  intro j
  induction j with
  | zero => intro st; simp
  | succ j ih =>
    intro st
    rw [Function.iterate_succ_apply]
    rw [ih (RPCANoisy.stepL1 D HHT lam tau muBar st)]
    rfl

/-- Evaluation of a `1×1` linear solve: `a⁻¹ b`, entrywise. -/
theorem linsolve_one_apply {k : ℕ} (a : Mat 1 1) (b : Mat 1 k) (i : Fin 1)
    (j : Fin k) : linsolve a b i j = (a 0 0)⁻¹ * b 0 j := by
  have hi : i = 0 := Subsingleton.elim i 0
  subst hi
  simp [linsolve, Matrix.det_fin_one, Matrix.adjugate_fin_one,
    Matrix.smul_apply, Matrix.one_mul]

/-- C1 (amended): in the noisy L2 variant the returned low-rank component is
exactly the product of the returned factors, `M = U Vᵀ` (so certainly within
`1e−9` in Frobenius norm): the final iterate is replaced by `X = L @ Q.T`
before return (rpca_noisy.py line 334).  The L1 variant performs no such
projection and the claim fails there (see the counterexample). -/
theorem C1_theorem {m n r : ℕ} (D : Mat m n) (Omega : MatB m n)
    (lam tau : ℚ) (ps : List ℕ) (etas : List ℚ) (max_iter : ℕ) (tol : ℚ) :
    (RPCANoisy.decompose_rpca_L2 (r := r) D Omega lam tau ps etas max_iter
      tol).M =
    (RPCANoisy.decompose_rpca_L2 (r := r) D Omega lam tau ps etas max_iter
      tol).U *
    (RPCANoisy.decompose_rpca_L2 (r := r) D Omega lam tau ps etas max_iter
      tol).Vᵀ := rfl

/-- C1 (counterexample): a concrete call to the noisy L1 solver
(`D = [[1]]`, all-observed mask, `lam = 0`, `tau = 1`, no periods, one
iteration) returns `M` (the unprojected final iterate `X ≈ 1e−6`) and factors
with `U Vᵀ ≈ 1`, so `‖M − U Vᵀ‖_F² > 1e−18`, i.e. `M` is *not* within `1e−9`
of `L Qᵀ` in Frobenius norm: the claim is false for the L1 variant. -/
theorem C1_counterexample :
    exceptOk
      (RPCANoisy.decompose_rpca_L1 (r := 1) !![(1 : ℚ)] !![true] 0 1 [] [] 1 0)
      (fun res =>
        sumSq (res.M - res.U * res.Vᵀ) > 1 / 1000000000000000000) := by
  simp only [RPCANoisy.decompose_rpca_L1, RPCANoisy.initL1,
    RPCANoisy.computeHHT, List.length_nil, List.range_zero, List.foldl_nil,
    loopB_one, ite_self, exceptOk]
  norm_num [RPCANoisy.stepL1, sumSq, Fin.sum_univ_one, linsolve_one_apply,
    soft_thresholding, sgn, matOnes, Matrix.transpose_apply,
    Matrix.smul_apply, Matrix.add_apply, Matrix.sub_apply, Matrix.of_apply,
    Matrix.mul_apply, Matrix.one_apply, Matrix.zero_apply]

/-- C2 (amended): every iteration of the PCP loop updates `M` by
SVD-thresholding `D − A + Y/μ` with threshold `μ` (not `1/μ`), and updates `A`
by soft-thresholding `D − M + Y/μ` with threshold `λ·μ` (not `λ/μ`), then
overwrites the unobserved entries with `D − M`. -/
theorem C2_theorem {m n k : ℕ} (svt : Mat m n → ℚ → Mat m k × Mat k n)
    (D : Mat m n) (mu lam : ℚ) (Omega : MatB m n) (j : ℕ) :
    (RPCAPCP.iterState svt D mu lam Omega (j + 1)).M =
      (svt (D - (RPCAPCP.iterState svt D mu lam Omega j).A +
        mu⁻¹ • (RPCAPCP.iterState svt D mu lam Omega j).Y) mu).1 *
      (svt (D - (RPCAPCP.iterState svt D mu lam Omega j).A +
        mu⁻¹ • (RPCAPCP.iterState svt D mu lam Omega j).Y) mu).2 ∧
    (RPCAPCP.iterState svt D mu lam Omega (j + 1)).A =
      matWhere (RPCAPCP.iterState svt D mu lam Omega j).Omega
        (soft_thresholding
          (D - (RPCAPCP.iterState svt D mu lam Omega (j + 1)).M +
            mu⁻¹ • (RPCAPCP.iterState svt D mu lam Omega j).Y)
          (lam * mu))
        (D - (RPCAPCP.iterState svt D mu lam Omega (j + 1)).M) := by
  have h : RPCAPCP.iterState svt D mu lam Omega (j + 1) =
      RPCAPCP.step svt D mu lam (RPCAPCP.iterState svt D mu lam Omega j) := by
    rw [RPCAPCP.iterState, Function.iterate_succ_apply', ← RPCAPCP.iterState]
  rw [h]
  exact ⟨rfl, rfl⟩

/-- C2 (counterexample): at the first iteration of a concrete PCP call
(`D = [[10]]`, all-observed, `μ = 2`, `λ = 1`) the computed `M` is
`soft-SVD(D, μ) = [[8]]`, not the claimed `soft-SVD(D − A₀ + Y₀/μ, 1/μ) = [[9.5]]`,
and the computed `A` is `[[0]]`, not the claimed
`soft(D − M + Y₀/μ, λ/μ) = [[1.5]]` — witnessed at entry `(0,0)`.  The claim's
thresholds `1/μ` and `λ/μ` are therefore false of the code. -/
theorem C2_counterexample :
    (RPCAPCP.iterState svt1 !![(10 : ℚ)] 2 1 !![true] 1).M 0 0 ≠
      ((svt1 (!![(10 : ℚ)] -
          (RPCAPCP.iterState svt1 !![(10 : ℚ)] 2 1 !![true] 0).A +
          (2 : ℚ)⁻¹ •
            (RPCAPCP.iterState svt1 !![(10 : ℚ)] 2 1 !![true] 0).Y)
          ((2 : ℚ)⁻¹)).1 *
        (svt1 (!![(10 : ℚ)] -
          (RPCAPCP.iterState svt1 !![(10 : ℚ)] 2 1 !![true] 0).A +
          (2 : ℚ)⁻¹ •
            (RPCAPCP.iterState svt1 !![(10 : ℚ)] 2 1 !![true] 0).Y)
          ((2 : ℚ)⁻¹)).2) 0 0 ∧
    (RPCAPCP.iterState svt1 !![(10 : ℚ)] 2 1 !![true] 1).A 0 0 ≠
      soft_thresholding (!![(10 : ℚ)] -
          (RPCAPCP.iterState svt1 !![(10 : ℚ)] 2 1 !![true] 1).M +
          (2 : ℚ)⁻¹ •
            (RPCAPCP.iterState svt1 !![(10 : ℚ)] 2 1 !![true] 0).Y)
        ((1 : ℚ) / 2) 0 0 := by
  constructor <;>
    norm_num [RPCAPCP.iterState, RPCAPCP.init, RPCAPCP.step, svt1,
      soft_thresholding, sgn, matWhere, Fin.sum_univ_one, Matrix.mul_apply,
      Matrix.smul_apply, Matrix.add_apply, Matrix.sub_apply, Matrix.of_apply,
      Matrix.zero_apply]

/-- C3 (amended): in the noisy L2 iteration, whenever the observed mask has a
false entry, the anomaly update is `np.where(Ω, soft_threshold(D − X, λ), D − X)`
(with the freshly solved `X`), exactly as the claim states; in the noisy L1
iteration the guard is `np.any(np.isnan(D))` instead, which is false on
NaN-free data, so `A = soft_threshold(D − X, λ)` on *all* entries, whatever
the mask — the claim fails for L1 (see the counterexample). -/
theorem C3_theorem {m n r : ℕ} (D : Mat m n) (HHT : Mat n n)
    (lam tau muBar : ℚ) (st : RPCANoisy.NState m n r) :
    (anyNot st.Omega = true →
      (RPCANoisy.stepL2 D HHT lam tau muBar st).A =
        matWhere st.Omega
          (soft_thresholding
            (D - (RPCANoisy.stepL2 D HHT lam tau muBar st).X) lam)
          (D - (RPCANoisy.stepL2 D HHT lam tau muBar st).X)) ∧
    (RPCANoisy.stepL1 D HHT lam tau muBar st).A =
      soft_thresholding (D - (RPCANoisy.stepL1 D HHT lam tau muBar st).X)
        lam := by
  constructor
  · intro h
    simp only [RPCANoisy.stepL2]
    rw [if_pos h]
  · rfl

/-- C3 (witness): the L2 half of the amended statement at a concrete state
whose mask has a false entry. -/
theorem C3_witness :
    anyNot (!![false] : MatB 1 1) = true ∧
    (RPCANoisy.stepL2 !![(7 : ℚ)] !![0] 0 1 1
        ⟨!![0], !![0], !![0], !![0], !![0], 1, 0, !![false]⟩).A =
      matWhere (!![false] : MatB 1 1)
        (soft_thresholding
          (!![(7 : ℚ)] - (RPCANoisy.stepL2 !![(7 : ℚ)] !![0] 0 1 1
            ⟨!![0], !![0], !![0], !![0], !![0], 1, 0, !![false]⟩).X) 0)
        (!![(7 : ℚ)] - (RPCANoisy.stepL2 !![(7 : ℚ)] !![0] 0 1 1
          ⟨!![0], !![0], !![0], !![0], !![0], 1, 0, !![false]⟩).X) := by
  have hb : anyNot (!![false] : MatB 1 1) = true := by decide
  exact ⟨hb, (C3_theorem !![(7 : ℚ)] !![0] 0 1 1
    ⟨!![0], !![0], !![0], !![0], !![0], 1, 0, !![false]⟩).1 hb⟩

set_option maxHeartbeats 1000000 in
/-- C3 (counterexample): a concrete call to the noisy L1 solver with a
NaN-free `D = [[4], [4]]` and a mask with the false entry `(1,0)`
(`λ = 1/2`, `τ = 1`, one iteration) returns `A(1,0) = (D − X)(1,0) − 1/2`,
the plain soft-threshold — *not* `(D − X)(1,0)` as the claim requires on
unobserved entries. -/
theorem C3_counterexample :
    (!![true; false] : MatB 2 1) 1 0 = false ∧
    exceptOk
      (RPCANoisy.decompose_rpca_L1 (r := 1) !![(4 : ℚ); 4] !![true; false]
        (1 / 2) 1 [] [] 1 0)
      (fun res => res.A 1 0 ≠ (!![(4 : ℚ); 4] - res.M) 1 0) := by
  refine ⟨rfl, ?_⟩
  simp only [RPCANoisy.decompose_rpca_L1, RPCANoisy.initL1,
    RPCANoisy.computeHHT, List.length_nil, List.range_zero, List.foldl_nil,
    loopB_one, ite_self, exceptOk]
  norm_num [RPCANoisy.stepL1, Fin.sum_univ_one, linsolve_one_apply,
    soft_thresholding, sgn, matOnes, Matrix.transpose_apply,
    Matrix.smul_apply, Matrix.add_apply, Matrix.sub_apply, Matrix.of_apply,
    Matrix.mul_apply, Matrix.one_apply, Matrix.zero_apply, Matrix.vecHead,
    Matrix.vecTail, Matrix.cons_val_zero, Matrix.cons_val_one,
    Matrix.head_cons]
  rw [abs_of_pos (show (0 : ℚ) < 1000003 / 1000001 by norm_num), sup_eq_max,
    max_def]
  norm_num

/-- Helper: a left fold of addition over `List.range` is a `Finset.range`
sum. -/
theorem foldl_add_range {M : Type _} [AddCommMonoid M] (g : ℕ → M) :
    ∀ N : ℕ,
      (List.range N).foldl (fun acc i => acc + g i) 0 =
        ∑ i ∈ Finset.range N, g i := by
  intro N
  induction N with
  | zero => simp
  | succ N ih =>
    rw [List.range_succ, List.foldl_append, ih, List.foldl_cons,
      List.foldl_nil, Finset.sum_range_succ]

/-- Helper: the running `HHT` accumulation of the source equals the
specification's sum `Σₖ ηₖ Hₖ Hₖᵀ`. -/
theorem computeHHT_eq_sum (ps : List ℕ) (etas : List ℚ) (n : ℕ) :
    RPCANoisy.computeHHT ps etas n =
      ∑ i : Fin ps.length, (etas.getD i 0) •
        (toeplitz_matrix (ps.get i) n * (toeplitz_matrix (ps.get i) n)ᵀ) := by
  rw [RPCANoisy.computeHHT, foldl_add_range, Finset.sum_range]
  apply Finset.sum_congr rfl
  intro i _
  have hp : ps.getD (i : ℕ) 0 = ps.get i := by
    rw [List.getD_eq_getElem ps 0 i.isLt, List.get_eq_getElem]
  rw [hp]

/-- C4 (amended): at entry to the noisy iteration loops, both variants
initialise `L = 1_{m×r}`, `Q = 1_{n×r}`, `A = 0`, `X = D`, and precompute
`HHT = Σₖ ηₖ Hₖ Hₖᵀ` once before the loop; the L2 variant initialises
`Y = 0` as claimed, but the L1 variant initialises `Y` (and the auxiliary
multipliers) to the *all-ones* matrix, not zero. -/
theorem C4_theorem {m n r : ℕ} (D : Mat m n) (Omega : MatB m n)
    (ps : List ℕ) (etas : List ℚ) :
    (∀ i j, (RPCANoisy.initL2 (r := r) D Omega).L i j = 1) ∧
    (∀ i j, (RPCANoisy.initL2 (r := r) D Omega).Q i j = 1) ∧
    (RPCANoisy.initL2 (r := r) D Omega).A = 0 ∧
    (RPCANoisy.initL2 (r := r) D Omega).Y = 0 ∧
    (RPCANoisy.initL2 (r := r) D Omega).X = D ∧
    (RPCANoisy.computeHHT ps etas n =
      ∑ i : Fin ps.length, (etas.getD i 0) •
        (toeplitz_matrix (ps.get i) n * (toeplitz_matrix (ps.get i) n)ᵀ)) ∧
    (∀ i j, (RPCANoisy.initL1 (r := r) D ps etas).L i j = 1) ∧
    (∀ i j, (RPCANoisy.initL1 (r := r) D ps etas).Q i j = 1) ∧
    (RPCANoisy.initL1 (r := r) D ps etas).A = 0 ∧
    (RPCANoisy.initL1 (r := r) D ps etas).X = D ∧
    (∀ i j, (RPCANoisy.initL1 (r := r) D ps etas).Y i j = 1) :=
  ⟨fun _ _ => rfl, fun _ _ => rfl, rfl, rfl, rfl, computeHHT_eq_sum ps etas n,
    fun _ _ => rfl, fun _ _ => rfl, rfl, rfl, fun _ _ => rfl⟩

/-- C4 (counterexample): the L1 initial multiplier `Y` is the all-ones
matrix, not the zero matrix the claim states — `np.ones((m, n))` at
rpca_noisy.py line 115. -/
theorem C4_counterexample :
    (RPCANoisy.initL1 (m := 1) (n := 1) (r := 1) !![(5 : ℚ)] [] []).Y ≠ 0 := by
  intro h
  have h0 := congrFun (congrFun h 0) 0
  simp [RPCANoisy.initL1, matOnes] at h0

/-- C5: the facade `decompose_rpca_signal` raises `InvalidParameter` exactly
when some period reaches the number of columns.  (a) If some `p ∈ list_periods`
has `p ≥ n`, the call returns the `InvalidParameter` error for a violating
period, and does so before any solver iteration: the result is independent of
`max_iter`.  (b) If every period is `< n`, no `InvalidParameter` error is
raised. -/
theorem C5_theorem {m n : ℕ} (approxRank : Mat m n → ℕ) (sqrtFn : ℚ → ℚ)
    (norm : String) (rankOpt : Option ℕ) (tauOpt lamOpt : Option ℚ)
    (ps : List ℕ) (etas : List ℚ) (max_iter : ℕ) (tol : ℚ) (X : Mat m n) :
    ((∃ p ∈ ps, ¬p < n) →
      ∃ p, p ∈ ps ∧ ¬p < n ∧
        (∀ max_iter2 : ℕ,
          RPCANoisy.decompose_rpca_signal approxRank sqrtFn norm rankOpt
            tauOpt lamOpt ps etas max_iter2 tol X =
          Except.error (RpcaError.invalidParameter p n))) ∧
    ((∀ p ∈ ps, p < n) →
      isInvalidParameterResult
        (RPCANoisy.decompose_rpca_signal approxRank sqrtFn norm rankOpt
          tauOpt lamOpt ps etas max_iter tol X) = false) := by
  constructor
  · intro hbad
    rcases hfind : ps.find? (fun p => !(decide (p < n))) with _ | p
    · exfalso
      rw [List.find?_eq_none] at hfind
      obtain ⟨p, hp, hpn⟩ := hbad
      have := hfind p hp
      simp [hpn] at this
    · refine ⟨p, List.mem_of_find?_eq_some hfind, ?_, ?_⟩
      · have := List.find?_some hfind
        simpa using this
      · intro max_iter2
        simp only [RPCANoisy.decompose_rpca_signal, hfind]
  · intro hgood
    have hfind : ps.find? (fun p => !(decide (p < n))) = none := by
      rw [List.find?_eq_none]
      intro p hp
      simp [hgood p hp]
    simp only [RPCANoisy.decompose_rpca_signal, hfind]
    by_cases h1 : norm = "L1"
    · simp only [h1, if_pos rfl]
      by_cases hps : ps = []
      · simp [RPCANoisy.decompose_rpca_L1, hps, isInvalidParameterResult,
          Except.map]
      · simp [RPCANoisy.decompose_rpca_L1, hps, isInvalidParameterResult,
          RpcaError.isInvalidParameter, Except.map]
    · rw [if_neg h1]
      by_cases h2 : norm = "L2"
      · simp [h2, isInvalidParameterResult]
      · simp [h2, isInvalidParameterResult, RpcaError.isInvalidParameter]

/-- C5 (witness): the spec's concrete scenario — `list_periods = [30]` on a
24-column input fails with `InvalidParameter` no matter how many iterations
are allowed, and an all-valid period list on the same input yields no
`InvalidParameter`. -/
theorem C5_witness :
    (∃ p, p ∈ [30] ∧ ¬p < 24 ∧
      (∀ max_iter2 : ℕ,
        RPCANoisy.decompose_rpca_signal (m := 8) (n := 24) (fun _ => 2) id
          "L2" none none none [30] [1] max_iter2 0 0 =
        Except.error (RpcaError.invalidParameter p 24))) ∧
    isInvalidParameterResult
      (RPCANoisy.decompose_rpca_signal (m := 8) (n := 24) (fun _ => 2) id
        "L2" none none none [12] [1] 1 0 0) = false := by
  constructor
  · exact (C5_theorem (m := 8) (n := 24) (fun _ => 2) id "L2" none none none
      [30] [1] 1 0 0).1 ⟨30, by simp, by omega⟩
  · exact (C5_theorem (m := 8) (n := 24) (fun _ => 2) id "L2" none none none
      [12] [1] 1 0 0).2 (by intro p hp; simp at hp; omega)

/-- C6: the PCP solver executes at most `max_iterations` iterations; it runs
at least one when allowed; the returned `M`, `A` are the loop iterates after
the executed iterations (reaching the cap is not an error — the function
returns normally); it stops early exactly when the relative residual test
(`errB`, the exact form of `‖D−M−A‖_F/‖D‖_F < tol`) fires: if it stopped
early the test holds at the final iterate and at no earlier one; and with
`tol = 0` the break never fires, so `tol = 0`, `max_iterations = 1` returns
after exactly one ADMM sweep. -/
theorem C6_theorem {m n k : ℕ} (svt : Mat m n → ℚ → Mat m k × Mat k n)
    (nuc : Mat m n → ℚ) (sqrtFn : ℚ → ℚ) (verbose : Bool)
    (muOpt lamOpt : Option ℚ) (max_iterations : ℕ) (tol : ℚ)
    (D : Mat m n) (Omega : MatB m n) :
    (RPCAPCP.decompose_rpca svt nuc sqrtFn verbose muOpt lamOpt
        max_iterations tol D Omega).iters ≤ max_iterations ∧
    (1 ≤ max_iterations →
      1 ≤ (RPCAPCP.decompose_rpca svt nuc sqrtFn verbose muOpt lamOpt
        max_iterations tol D Omega).iters) ∧
    ((RPCAPCP.decompose_rpca svt nuc sqrtFn verbose muOpt lamOpt
        max_iterations tol D Omega).M =
      (RPCAPCP.iterState svt D
        (muOpt.getD (RPCAPCP.get_params_scale sqrtFn D).1)
        (lamOpt.getD (RPCAPCP.get_params_scale sqrtFn D).2) Omega
        (RPCAPCP.decompose_rpca svt nuc sqrtFn verbose muOpt lamOpt
          max_iterations tol D Omega).iters).M ∧
     (RPCAPCP.decompose_rpca svt nuc sqrtFn verbose muOpt lamOpt
        max_iterations tol D Omega).A =
      (RPCAPCP.iterState svt D
        (muOpt.getD (RPCAPCP.get_params_scale sqrtFn D).1)
        (lamOpt.getD (RPCAPCP.get_params_scale sqrtFn D).2) Omega
        (RPCAPCP.decompose_rpca svt nuc sqrtFn verbose muOpt lamOpt
          max_iterations tol D Omega).iters).A) ∧
    ((RPCAPCP.decompose_rpca svt nuc sqrtFn verbose muOpt lamOpt
        max_iterations tol D Omega).iters < max_iterations →
      RPCAPCP.errB D tol
        (RPCAPCP.iterState svt D
          (muOpt.getD (RPCAPCP.get_params_scale sqrtFn D).1)
          (lamOpt.getD (RPCAPCP.get_params_scale sqrtFn D).2) Omega
          (RPCAPCP.decompose_rpca svt nuc sqrtFn verbose muOpt lamOpt
            max_iterations tol D Omega).iters) = true) ∧
    (∀ j, 1 ≤ j →
      j < (RPCAPCP.decompose_rpca svt nuc sqrtFn verbose muOpt lamOpt
        max_iterations tol D Omega).iters →
      RPCAPCP.errB D tol
        (RPCAPCP.iterState svt D
          (muOpt.getD (RPCAPCP.get_params_scale sqrtFn D).1)
          (lamOpt.getD (RPCAPCP.get_params_scale sqrtFn D).2) Omega j)
        = false) ∧
    (tol = 0 →
      (RPCAPCP.decompose_rpca svt nuc sqrtFn verbose muOpt lamOpt
        max_iterations tol D Omega).iters = max_iterations) := by
  set mu := muOpt.getD (RPCAPCP.get_params_scale sqrtFn D).1 with hmu
  set lam := lamOpt.getD (RPCAPCP.get_params_scale sqrtFn D).2 with hlam
  have hres : RPCAPCP.decompose_rpca svt nuc sqrtFn verbose muOpt lamOpt
      max_iterations tol D Omega =
    { M := (loopB (RPCAPCP.step svt D mu lam) (RPCAPCP.errB D tol)
        max_iterations (RPCAPCP.init D Omega)).1.M,
      A := (loopB (RPCAPCP.step svt D mu lam) (RPCAPCP.errB D tol)
        max_iterations (RPCAPCP.init D Omega)).1.A,
      L := (loopB (RPCAPCP.step svt D mu lam) (RPCAPCP.errB D tol)
        max_iterations (RPCAPCP.init D Omega)).1.L,
      Q := (loopB (RPCAPCP.step svt D mu lam) (RPCAPCP.errB D tol)
        max_iterations (RPCAPCP.init D Omega)).1.Q,
      iters := (loopB (RPCAPCP.step svt D mu lam) (RPCAPCP.errB D tol)
        max_iterations (RPCAPCP.init D Omega)).2,
      warned := RPCAPCP.check_cost_function_minimized nuc verbose D
        (loopB (RPCAPCP.step svt D mu lam) (RPCAPCP.errB D tol)
          max_iterations (RPCAPCP.init D Omega)).1.M
        (loopB (RPCAPCP.step svt D mu lam) (RPCAPCP.errB D tol)
          max_iterations (RPCAPCP.init D Omega)).1.A Omega lam,
      Omega := (loopB (RPCAPCP.step svt D mu lam) (RPCAPCP.errB D tol)
        max_iterations (RPCAPCP.init D Omega)).1.Omega } := rfl
  rw [hres]
  have hfst := loopB_fst (RPCAPCP.step svt D mu lam) (RPCAPCP.errB D tol)
    max_iterations (RPCAPCP.init D Omega)
  refine ⟨loopB_count_le _ _ _ _, fun h1 => loopB_count_pos _ _ _ _ h1,
    ⟨?_, ?_⟩, ?_, ?_, ?_⟩
  · rw [hfst]; rfl
  · rw [hfst]; rfl
  · intro hlt
    have := loopB_brk_of_lt (RPCAPCP.step svt D mu lam) (RPCAPCP.errB D tol)
      max_iterations (RPCAPCP.init D Omega) hlt
    exact this
  · intro j hj1 hj2
    exact loopB_not_brk (RPCAPCP.step svt D mu lam) (RPCAPCP.errB D tol)
      max_iterations (RPCAPCP.init D Omega) j hj1 hj2
  · intro htol
    apply loopB_count_eq_of_all_false
    intro st
    simp [RPCAPCP.errB, htol]

/-- C6 (witness): a concrete PCP call with `tol = 0` and `max_iterations = 1`
executes exactly one ADMM sweep and returns normally. -/
theorem C6_witness :
    (RPCAPCP.decompose_rpca svt1 nuc1 id true (some 1) (some 1) 1 0
      !![(10 : ℚ)] !![true]).iters = 1 := by
  have h := C6_theorem svt1 nuc1 id true (some 1) (some 1) 1 0
    !![(10 : ℚ)] !![true]
  exact h.2.2.2.2.2 rfl

/-- Monotonicity of `round`. -/
theorem round_mono_q {x y : ℚ} (h : x ≤ y) : round x ≤ round y := by
  rw [round_eq, round_eq]
  exact Int.floor_le_floor (by linarith)

/-- If the exact final cost exceeds the exact initial cost by more than
`1e−2`, then the four-decimal roundings compared by the source differ by at
least `1e−2`. -/
theorem round4_le_of_gt {s e : ℚ} (h : e - s > 1 / 100) :
    RPCAPCP.round4 s - RPCAPCP.round4 e ≤ -(1 / 100) := by
  unfold RPCAPCP.round4
  have h1 : s * 10000 + 100 ≤ e * 10000 := by linarith
  have h2 : round (s * 10000 + (100 : ℤ)) ≤ round (e * 10000) := by
    apply round_mono_q
    push_cast
    linarith
  rw [round_add_int] at h2
  have h3 : (round (s * 10000) : ℚ) + 100 ≤ (round (e * 10000) : ℚ) := by
    exact_mod_cast h2
  linarith

/-- C9: neither solver ever writes to the observed mask: the `Omega` carried
through every iteration of the PCP loop and of the noisy L2 loop is the
`Omega` passed in, unchanged at exit (the loop bodies contain no assignment
to it; the L1 loop body is identical in this respect). -/
theorem C9_theorem {m n k r : ℕ} (svt : Mat m n → ℚ → Mat m k × Mat k n)
    (nuc : Mat m n → ℚ) (sqrtFn : ℚ → ℚ) (verbose : Bool)
    (muOpt lamOpt : Option ℚ) (max_iterations : ℕ) (tol : ℚ)
    (D : Mat m n) (Omega : MatB m n) (D2 : Mat m n) (Omega2 : MatB m n)
    (lam tau : ℚ) (ps : List ℕ) (etas : List ℚ) (max_iter2 : ℕ) (tol2 : ℚ) :
    (RPCAPCP.decompose_rpca svt nuc sqrtFn verbose muOpt lamOpt
      max_iterations tol D Omega).Omega = Omega ∧
    (RPCANoisy.decompose_rpca_L2 (r := r) D2 Omega2 lam tau ps etas
      max_iter2 tol2).Omega = Omega2 := by
  constructor
  · show (loopB _ _ max_iterations (RPCAPCP.init D Omega)).1.Omega = Omega
    rw [loopB_fst, pcpStep_preserves_Omega]
    rfl
  · show (loopB _ _ max_iter2 (RPCANoisy.initL2 D2 Omega2)).1.Omega = Omega2
    rw [loopB_fst, stepL2_preserves_Omega]
    rfl

/-- C10: for every matrix with exactly one row or one column,
`decompose_on_basis` returns `(D, 0)` immediately: the test precedes the
parameter estimation, the warm start and the loop, so the result does not
depend on `mu`, `lam`, `max_iterations` or the basis `Q` at all. -/
theorem C10_theorem {m n k : ℕ} (nuc : Mat m n → ℚ) (sqrtFn : ℚ → ℚ)
    (verbose : Bool) (muOpt lamOpt : Option ℚ) (max_iterations : ℕ)
    (D : Mat m n) (Omega : MatB m n) (Q : Matrix (Fin k) (Fin n) ℚ)
    (h : m = 1 ∨ n = 1) :
    RPCAPCP.decompose_on_basis nuc sqrtFn verbose muOpt lamOpt
      max_iterations D Omega Q = Except.ok (D, 0) := by
  simp only [RPCAPCP.decompose_on_basis, if_pos h]

/-- C10 (witness): a concrete single-row input is returned unchanged with a
zero anomaly matrix, whatever the parameters. -/
theorem C10_witness :
    RPCAPCP.decompose_on_basis (m := 1) (n := 3) (k := 2) (fun _ => 0) id
      true none none 500 !![(1 : ℚ), 2, 3] !![true, false, true]
      (Matrix.of fun _ _ => 1) = Except.ok (!![(1 : ℚ), 2, 3], 0) :=
  C10_theorem (fun _ => 0) id true none none 500 !![(1 : ℚ), 2, 3]
    !![true, false, true] (Matrix.of fun _ _ => 1) (Or.inl rfl)

/-- C8: when a parameter is left unset, the PCP solver resolves
`μ = m·n / (4‖D‖₁)` and `λ = 1/√max(m,n)`, and the noisy facade resolves
`rank = approx_rank(D)` and `τ = λ = 1/√max(m,n)` — the calls with unset
parameters behave identically to the calls with those values passed
explicitly; and explicitly set parameters are used unchanged — the scaling
oracles (`np.sqrt`, `approx_rank`) then have no influence on the result. -/
theorem C8_theorem {m n k : ℕ} (svt : Mat m n → ℚ → Mat m k × Mat k n)
    (nuc : Mat m n → ℚ) (sqrtFn sqrtFn2 : ℚ → ℚ) (verbose : Bool)
    (max_iterations : ℕ) (tol : ℚ) (D : Mat m n) (Omega : MatB m n)
    (mu0 lam0 : ℚ) (approxRank approxRank2 : Mat m n → ℕ) (norm : String)
    (rank0 : ℕ) (tau0 lam1 : ℚ) (ps : List ℕ) (etas : List ℚ)
    (max_iter2 : ℕ) (tol2 : ℚ) (X : Mat m n) :
    (RPCAPCP.decompose_rpca svt nuc sqrtFn verbose none none
        max_iterations tol D Omega =
      RPCAPCP.decompose_rpca svt nuc sqrtFn verbose
        (some ((m * n : ℚ) / (4 * l1_norm D)))
        (some (1 / sqrtFn (max m n : ℕ)))
        max_iterations tol D Omega) ∧
    (RPCAPCP.decompose_rpca svt nuc sqrtFn verbose (some mu0) (some lam0)
        max_iterations tol D Omega =
      RPCAPCP.decompose_rpca svt nuc sqrtFn2 verbose (some mu0) (some lam0)
        max_iterations tol D Omega) ∧
    (RPCANoisy.decompose_rpca_signal approxRank sqrtFn norm none none none
        ps etas max_iter2 tol2 X =
      RPCANoisy.decompose_rpca_signal approxRank sqrtFn norm
        (some (approxRank X)) (some (1 / sqrtFn (max m n : ℕ)))
        (some (1 / sqrtFn (max m n : ℕ))) ps etas max_iter2 tol2 X) ∧
    (RPCANoisy.decompose_rpca_signal approxRank sqrtFn norm (some rank0)
        (some tau0) (some lam1) ps etas max_iter2 tol2 X =
      RPCANoisy.decompose_rpca_signal approxRank2 sqrtFn2 norm (some rank0)
        (some tau0) (some lam1) ps etas max_iter2 tol2 X) :=
  ⟨rfl, rfl, rfl, rfl⟩

/-- C7 (amended): the PCP post-check is purely diagnostic.  The returned
`M`, `A` are identical whether or not the check can warn (`verbose` on or
off); with `verbose` off nothing is ever emitted; and with `verbose` on, if
the final cost `‖M‖_* + λ·Σ_{Ω}|A|` (the anomaly term is masked by the
observed entries — not the full `λ‖A‖₁` of the claim) exceeds the initial
cost `‖D‖_*` by more than `1e−2`, the non-fatal warning is emitted. -/
theorem C7_theorem {m n k : ℕ} (svt : Mat m n → ℚ → Mat m k × Mat k n)
    (nuc : Mat m n → ℚ) (sqrtFn : ℚ → ℚ) (muOpt lamOpt : Option ℚ)
    (max_iterations : ℕ) (tol : ℚ) (D : Mat m n) (Omega : MatB m n) :
    ((RPCAPCP.decompose_rpca svt nuc sqrtFn true muOpt lamOpt
        max_iterations tol D Omega).M =
      (RPCAPCP.decompose_rpca svt nuc sqrtFn false muOpt lamOpt
        max_iterations tol D Omega).M) ∧
    ((RPCAPCP.decompose_rpca svt nuc sqrtFn true muOpt lamOpt
        max_iterations tol D Omega).A =
      (RPCAPCP.decompose_rpca svt nuc sqrtFn false muOpt lamOpt
        max_iterations tol D Omega).A) ∧
    ((RPCAPCP.decompose_rpca svt nuc sqrtFn false muOpt lamOpt
        max_iterations tol D Omega).warned = false) ∧
    (nuc (RPCAPCP.decompose_rpca svt nuc sqrtFn true muOpt lamOpt
          max_iterations tol D Omega).M +
        (lamOpt.getD (RPCAPCP.get_params_scale sqrtFn D).2) *
          ∑ i, ∑ j, (if Omega i j then
            |(RPCAPCP.decompose_rpca svt nuc sqrtFn true muOpt lamOpt
              max_iterations tol D Omega).A i j| else 0) >
        nuc (linear_interpolation D) + 1 / 100 →
      (RPCAPCP.decompose_rpca svt nuc sqrtFn true muOpt lamOpt
        max_iterations tol D Omega).warned = true) := by
  refine ⟨rfl, rfl, rfl, ?_⟩
  intro h
  dsimp only [RPCAPCP.decompose_rpca] at h
  show (RPCAPCP.check_cost_function_minimized nuc true (linear_interpolation D)
      _ _ Omega _) = true
  simp only [RPCAPCP.check_cost_function_minimized, Bool.true_and,
    decide_eq_true_eq]
  exact round4_le_of_gt (by linarith)

/-- C7 (witness): a concrete verbose PCP call whose final masked cost exceeds
the initial cost by more than `1e−2` does emit the warning. -/
theorem C7_witness :
    (RPCAPCP.decompose_rpca svt1 nuc1 id true (some (-1)) (some 1) 1 0
      !![(10 : ℚ)] !![true]).warned = true := by
  apply (C7_theorem svt1 nuc1 id (some (-1)) (some 1) 1 0 !![(10 : ℚ)]
    !![true]).2.2.2
  norm_num [RPCAPCP.decompose_rpca, RPCAPCP.get_params_scale, loopB_one,
    RPCAPCP.step, RPCAPCP.init, svt1, nuc1, soft_thresholding, sgn, matWhere,
    linear_interpolation, Fin.sum_univ_one, Matrix.mul_apply,
    Matrix.smul_apply, Matrix.add_apply, Matrix.sub_apply, Matrix.of_apply,
    Matrix.zero_apply]

/-- C7 (counterexample): a concrete verbose PCP call (`D = [[10]]`, the
single entry unobserved, `μ = 1`, `λ = 2`, one sweep) ends with `M = [[9]]`,
`A = [[1]]`: the final cost in the claim's sense,
`‖M‖_* + λ‖A‖₁ = 9 + 2 = 11`, exceeds `‖D‖_* + 1e−2 = 10.01`, yet no
diagnostic is emitted, because the code masks the anomaly term by `Ω`
(`cost_end = 9 < 10`): the claim's trigger condition is false of the code. -/
theorem C7_counterexample :
    nuc1 (RPCAPCP.decompose_rpca svt1 nuc1 id true (some 1) (some 2) 1 0
        !![(10 : ℚ)] !![false]).M +
      2 * l1_norm (RPCAPCP.decompose_rpca svt1 nuc1 id true (some 1) (some 2)
        1 0 !![(10 : ℚ)] !![false]).A >
      nuc1 !![(10 : ℚ)] + 1 / 100 ∧
    (RPCAPCP.decompose_rpca svt1 nuc1 id true (some 1) (some 2) 1 0
      !![(10 : ℚ)] !![false]).warned = false := by
  constructor <;>
    norm_num [RPCAPCP.decompose_rpca, RPCAPCP.get_params_scale, loopB_one,
      RPCAPCP.step, RPCAPCP.init, RPCAPCP.check_cost_function_minimized,
      RPCAPCP.round4, round_eq, svt1, nuc1, l1_norm, soft_thresholding, sgn,
      matWhere, linear_interpolation, Fin.sum_univ_one, Matrix.mul_apply,
      Matrix.smul_apply, Matrix.add_apply, Matrix.sub_apply, Matrix.of_apply,
      Matrix.zero_apply]

